import Mathlib

/-!
# Verification of the plaite recipe validation & normalization pipeline

This file gives a shallow embedding, in Lean 4, of the recipe
validation and field-normalization core of the `plaite_backend`
repository, and proves (or refutes) the specification claims about it.

Embedded source functions:
* `validate_and_transform_recipe`  (src/plaite/pipeline/validation.py)
* `process_recipe_fields`          (src/plaite/firebase/upload.py)
* `Recipe.from_raw`, `Recipe.validate`, and the pydantic field
  validators                       (src/plaite/models/recipe.py)
* `upload_recipes_to_firebase`     (src/plaite/pipeline/upload.py)

Python values are modelled by the inductive `Value`; a Python `dict`
with string keys is modelled as an insertion-ordered association list
(`Record`), matching CPython 3.7+ dict ordering.  Machine floats are
modelled as exact rationals; every numeric value appearing in the
claims has a short exact decimal representation, so no rounding
behaviour is observable in the statements proved here.  Note that in
the model `Value.int 6` and `Value.float 6` are distinct, mirroring
the fact that in Python `6` and `6.0` are values of distinct runtime
types (even though `6 == 6.0` numerically); the distinction is
observable through `type()`, JSON serialization and Firestore typing.
-/

namespace Plaite

/-- Model of a Python value.  `dict` is an insertion-ordered list of
string-keyed entries (all dictionaries occurring in this code base use
string keys). -/
inductive Value where
  | none : Value
  | bool : Bool → Value
  | int : ℤ → Value
  | float : ℚ → Value
  | str : String → Value
  | list : List Value → Value
  | dict : List (String × Value) → Value
  deriving Repr

/-- A recipe record: a Python dict with string keys, in insertion order. -/
abbrev Record := List (String × Value)

namespace Value

/-- Python truthiness (`bool(v)`). -/
def truthy : Value → Bool
  | .none => false
  | .bool b => b
  | .int n => n ≠ 0
  | .float q => q ≠ 0
  | .str s => s ≠ ""
  | .list xs => !xs.isEmpty
  | .dict es => !es.isEmpty

/-- `isinstance(v, list)`. -/
def isList : Value → Bool
  | .list _ => true
  | _ => false

/-- `isinstance(v, dict)`. -/
def isDict : Value → Bool
  | .dict _ => true
  | _ => false

/-- `isinstance(v, str)`. -/
def isStr : Value → Bool
  | .str _ => true
  | _ => false

/-- `isinstance(v, (int, float))`.  In Python `bool` is a subclass of
`int`, so booleans satisfy this check. -/
def isNumeric : Value → Bool
  | .int _ => true
  | .float _ => true
  | .bool _ => true
  | _ => false

/-- `type(v).__name__`, as used in validation error payloads. -/
def pyTypeName : Value → String
  | .none => "NoneType"
  | .bool _ => "bool"
  | .int _ => "int"
  | .float _ => "float"
  | .str _ => "str"
  | .list _ => "list"
  | .dict _ => "dict"

/-- Python `a or b`: returns `a` when `a` is truthy, else `b`. -/
def pyOr (a b : Value) : Value := if a.truthy then a else b

end Value

/-- `d.get(k)` / `d[k]` lookup: first (and, keys being unique, only)
entry with the given key. -/
def dictGet : Record → String → Option Value
  | [], _ => Option.none
  | (k', v') :: rest, k => if k' = k then some v' else dictGet rest k

/-- `k in d`. -/
def hasKey (r : Record) (k : String) : Bool := (dictGet r k).isSome

/-- `d[k] = v`: replaces the value in place when the key exists
(position preserved, as in CPython dicts), appends otherwise. -/
def dictSet : Record → String → Value → Record
  | [], k, v => [(k, v)]
  | (k', v') :: rest, k, v =>
      if k' = k then (k, v) :: rest else (k', v') :: dictSet rest k v

/-- The removal part of `d.pop(k)`: drops the entry with the given key,
preserving the order of the remaining entries. -/
def dictRemove : Record → String → Record
  | [], _ => []
  | (k', v') :: rest, k =>
      if k' = k then rest else (k', v') :: dictRemove rest k

@[simp] theorem dictGet_nil (k : String) : dictGet [] k = Option.none := rfl

@[simp] theorem dictGet_cons (k' k : String) (v : Value) (rest : Record) :
    dictGet ((k', v) :: rest) k = if k' = k then some v else dictGet rest k := rfl

theorem dictGet_dictSet_self (r : Record) (k : String) (v : Value) :
    dictGet (dictSet r k v) k = some v := by
  induction r with
  | nil => simp [dictSet]
  | cons hd tl ih =>
      obtain ⟨k', v'⟩ := hd
      by_cases h : k' = k <;> simp [dictSet, h, ih]

theorem dictGet_dictSet_other (r : Record) (k k' : String) (v : Value)
    (hne : k ≠ k') : dictGet (dictSet r k v) k' = dictGet r k' := by
  induction r with
  | nil => simp [dictSet, hne]
  | cons hd tl ih =>
      obtain ⟨k₀, v₀⟩ := hd
      by_cases h : k₀ = k
      · subst h; simp [dictSet, hne]
      · simp only [dictSet, if_neg h, dictGet_cons]
        by_cases h' : k₀ = k' <;> simp [h', ih]

theorem dictGet_eq_none_of_not_mem_keys (r : Record) (k : String)
    (h : k ∉ r.map Prod.fst) : dictGet r k = Option.none := by
  induction r with
  | nil => rfl
  | cons hd tl ih =>
      obtain ⟨k₀, v₀⟩ := hd
      simp only [List.map_cons, List.mem_cons, not_or] at h
      have hne : k₀ ≠ k := fun he => h.1 he.symm
      simp only [dictGet_cons, if_neg hne]
      exact ih h.2

theorem dictGet_dictRemove_self (r : Record) (k : String)
    (hnd : (r.map Prod.fst).Nodup) : dictGet (dictRemove r k) k = Option.none := by
  induction r with
  | nil => rfl
  | cons hd tl ih =>
      obtain ⟨k₀, v₀⟩ := hd
      simp only [List.map_cons, List.nodup_cons] at hnd
      by_cases h : k₀ = k
      · subst h
        simpa only [dictRemove, if_pos rfl] using
          dictGet_eq_none_of_not_mem_keys tl k₀ hnd.1
      · simp only [dictRemove, if_neg h, dictGet_cons, if_neg h]
        exact ih hnd.2

theorem dictGet_dictRemove_other (r : Record) (k k' : String) (hne : k ≠ k') :
    dictGet (dictRemove r k) k' = dictGet r k' := by
  induction r with
  | nil => simp [dictRemove]
  | cons hd tl ih =>
      obtain ⟨k₀, v₀⟩ := hd
      by_cases h : k₀ = k
      · subst h; simp [dictRemove, hne]
      · simp only [dictRemove, if_neg h, dictGet_cons]
        by_cases h' : k₀ = k' <;> simp [h', ih]

theorem dictSet_self_eq (r : Record) (k : String) (v : Value)
    (h : dictGet r k = some v) : dictSet r k v = r := by
  induction r with
  | nil => simp [dictGet] at h
  | cons hd tl ih =>
      obtain ⟨k₀, v₀⟩ := hd
      by_cases hk : k₀ = k
      · subst hk
        rw [dictGet_cons, if_pos rfl] at h
        injection h with h
        simp [dictSet, h]
      · simp only [dictGet_cons, if_neg hk] at h
        simp [dictSet, hk, ih h]

/-! ## Python string conversion and number parsing -/

/-- Digit string to natural number. -/
def digitsToNat (ds : List Char) : ℕ :=
  ds.foldl (fun acc c => 10 * acc + (c.toNat - 48)) 0

/-- Exact value of a decimal token `digits ['.' digits]`, as produced by
the regex `\d+\.?\d*`.  Models Python `float(token)`; Python rounds the
decimal to the nearest binary double, but every token appearing in the
claims ("4", "6", ...) is exactly representable, so the model and
Python agree on all values this file evaluates. -/
def parseDecimal (t : List Char) : ℚ :=
  let intPart := t.takeWhile Char.isDigit
  let rest := t.dropWhile Char.isDigit
  match rest with
  | '.' :: frac => (digitsToNat intPart : ℚ) + (digitsToNat frac : ℚ) / (10 : ℚ) ^ frac.length
  | _ => (digitsToNat intPart : ℚ)

/-- The first match of `re.findall(r"\d+\.?\d*", s)`: starting at the
first digit, a maximal digit run, then an optional dot followed by a
maximal digit run.  Returns `none` when the string has no digit. -/
def pyFindNumber : List Char → Option (List Char)
  | [] => Option.none
  | c :: rest =>
    if c.isDigit then
      let d1 := (c :: rest).takeWhile Char.isDigit
      let r1 := (c :: rest).dropWhile Char.isDigit
      match r1 with
      | '.' :: r2 => some (d1 ++ '.' :: r2.takeWhile Char.isDigit)
      | _ => some d1
    else pyFindNumber rest

/-- Fractional decimal digits of `x ∈ [0,1)`, most significant first. -/
def fracDigits : ℕ → ℚ → List Char
  | 0, _ => []
  | n + 1, x =>
      let y := x * 10
      let d := (Int.floor y).toNat % 10
      Char.ofNat (d + 48) :: fracDigits n (y - Int.floor y)

/-- Python `str`/`repr` of a float.  Python prints the shortest decimal
that round-trips through the double; for floats with a short exact
decimal expansion (the only floats the claims produce) that is the
exact expansion, which this prints (up to 17 fractional digits,
trailing zeros stripped). -/
def pyFloatStr (q : ℚ) : String :=
  let sign := if q < 0 then "-" else ""
  let a := |q|
  let ip := (Int.floor a).toNat
  let ds := fracDigits 17 (a - Int.floor a)
  let ds := (ds.reverse.dropWhile (· = '0')).reverse
  let ds := if ds.isEmpty then ['0'] else ds
  sign ++ toString ip ++ "." ++ String.mk ds

mutual

/-- Python `str(v)`.  For strings `str` is the identity; containers
render via `repr` of their elements (quoting subtleties of `repr` for
exotic strings are not exercised by any claim). -/
def pyStr : Value → String
  | .none => "None"
  | .bool true => "True"
  | .bool false => "False"
  | .int n => toString n
  | .float q => pyFloatStr q
  | .str s => s
  | .list xs => "[" ++ String.intercalate ", " (pyReprList xs) ++ "]"
  | .dict es => "\x7b" ++ String.intercalate ", " (pyReprEntries es) ++ "\x7d"

/-- Python `repr(v)`: differs from `str` only on strings, which are quoted. -/
def pyRepr : Value → String
  | .str s => "\x27" ++ s ++ "\x27"
  | .none => "None"
  | .bool true => "True"
  | .bool false => "False"
  | .int n => toString n
  | .float q => pyFloatStr q
  | .list xs => "[" ++ String.intercalate ", " (pyReprList xs) ++ "]"
  | .dict es => "\x7b" ++ String.intercalate ", " (pyReprEntries es) ++ "\x7d"

def pyReprList : List Value → List String
  | [] => []
  | x :: xs => pyRepr x :: pyReprList xs

def pyReprEntries : List (String × Value) → List String
  | [] => []
  | (k, v) :: es => ("\x27" ++ k ++ "\x27: " ++ pyRepr v) :: pyReprEntries es

end

/-! ## `plaite.pipeline.validation` -/

/-- `ValidationError` (validation.py).  The `value` payload is
`type(x).__name__` at every call site, hence a string here. -/
structure ValidationError where
  recipe_id : Value
  field : Option String
  error : String
  value : Option String := Option.none
  deriving Repr

/-- `ValidationResult` (validation.py). -/
structure ValidationResult where
  is_valid : Bool
  recipe : Option Record
  errors : List ValidationError
  deriving Repr

/-- `recipe_data["ingredientStrings"] = recipe_data.pop("ingredients")`
whenever `"ingredients"` is present — the unconditional first rename of
`validate_and_transform_recipe` (validation.py lines 52-53). -/
def moveIngredientsKey (rd : Record) : Record :=
  match dictGet rd "ingredients" with
  | some v => dictSet (dictRemove rd "ingredients") "ingredientStrings" v
  | Option.none => rd

/-- `recipe_data["ingredients"] = recipe_data.pop("procesedIngredients")`
whenever that key is present — the second rename of
`validate_and_transform_recipe` (validation.py lines 56-57), and the
identical lines 86-87 of firebase/upload.py. -/
def moveProcesedKey (rd : Record) : Record :=
  match dictGet rd "procesedIngredients" with
  | some v => dictSet (dictRemove rd "procesedIngredients") "ingredients" v
  | Option.none => rd

/-- Step 1 of `validate_and_transform_recipe` (validation.py lines
51-57): both renames in source order. -/
def renameIngredientFields (rd : Record) : Record :=
  moveProcesedKey (moveIngredientsKey rd)

/-- One entry of the nutrients dict-to-array conversion:
`{"name": name, "quantity": str(quantity)}`. -/
def nutrientsEntryToDict (p : String × Value) : Value :=
  .dict [("name", .str p.1), ("quantity", .str (pyStr p.2))]

/-- Nutrients normalization step, the translation of validation.py
lines 108-120 and of the identical block in firebase/upload.py lines
89-98: a dict value becomes a list of `{name, quantity}` pairs in
iteration (= insertion) order; a list is left alone; any other present
value becomes `[]`; an absent key is untouched. -/
def nutrientsStep (rd : Record) : Record :=
  match dictGet rd "nutrients" with
  | some (.dict entries) =>
      dictSet rd "nutrients" (.list (entries.map nutrientsEntryToDict))
  | some (.list _) => rd
  | some _ => dictSet rd "nutrients" (.list [])
  | Option.none => rd

/-- `float(re.findall(r"\d+\.?\d*", s)[0])` when a match exists, else
`None` — the string branch of numServings normalization. -/
def servingsOfStr (s : String) : Value :=
  match pyFindNumber s.data with
  | some t => .float (parseDecimal t)
  | Option.none => .none

/-- numServings normalization step, the translation of validation.py
lines 122-133 and of the identical block in firebase/upload.py lines
100-107: strings are parsed (or nulled); `isinstance(v, (int, float))`
values — which in Python include booleans — are left unchanged; any
other present value becomes `None`; an absent key is untouched. -/
def servingsStep (rd : Record) : Record :=
  match dictGet rd "numServings" with
  | some (.str s) => dictSet rd "numServings" (servingsOfStr s)
  | some (.int _) => rd
  | some (.float _) => rd
  | some (.bool _) => rd
  | some _ => dictSet rd "numServings" Value.none
  | Option.none => rd

def missingFieldsError (recipe_id : Value) : ValidationError :=
  ⟨recipe_id, Option.none,
   "Missing required fields (tags, instructions, or ingredients)", Option.none⟩

def notAListError (recipe_id : Value) (f : String) (v : Value) : ValidationError :=
  ⟨recipe_id, some f, f ++ " is not a list", some v.pyTypeName⟩

def missingUrlError (recipe_id : Value) : ValidationError :=
  ⟨recipe_id, some "url", "Missing image URL", Option.none⟩

/-- `validate_and_transform_recipe` (validation.py lines 27-145).
The Python function first copies its argument (`recipe.copy()`); in
this functional model the copy is implicit and all rewrites appear in
the returned record. -/
def validate_and_transform_recipe (recipe : Record) : ValidationResult :=
  let recipe_id := (dictGet recipe "id").getD (Value.str "unknown")
  let rd := renameIngredientFields recipe
  if !hasKey rd "tags" || !hasKey rd "instructions" || !hasKey rd "ingredients" then
    ⟨false, Option.none, [missingFieldsError recipe_id]⟩
  else
    let tagsv := (dictGet rd "tags").getD .none
    if !tagsv.isList then
      ⟨false, Option.none, [notAListError recipe_id "tags" tagsv]⟩
    else
      let instrv := (dictGet rd "instructions").getD .none
      if !instrv.isList then
        ⟨false, Option.none, [notAListError recipe_id "instructions" instrv]⟩
      else
        let ingrv := (dictGet rd "ingredients").getD .none
        if !ingrv.isList then
          ⟨false, Option.none, [notAListError recipe_id "ingredients" ingrv]⟩
        else
          let rd := nutrientsStep rd
          let rd := servingsStep rd
          if !hasKey rd "url" then
            ⟨false, Option.none, [missingUrlError recipe_id]⟩
          else
            ⟨true, some rd, []⟩

/-- `validate_and_transform_recipe` together with the caller-visible
state of its argument after the call.  The source first takes
`recipe_data = recipe.copy()` and every subsequent write targets
`recipe_data` or local variables, never `recipe`, so the caller's
record is returned unchanged in the first component. -/
def validate_and_transform_full (recipe : Record) : Record × ValidationResult :=
  (recipe, validate_and_transform_recipe recipe)

/-! ## `plaite.firebase.upload` -/

/-- The guarded first rename of `process_recipe_fields`
(firebase/upload.py lines 80-84): move `ingredients` to
`ingredientStrings` only when the latter is absent and the value is a
non-empty list whose first element is a string. -/
def guardedMoveIngredients (recipe : Record) : Record :=
  if hasKey recipe "ingredients" && !hasKey recipe "ingredientStrings" then
    match dictGet recipe "ingredients" with
    | some (.list (x :: xs)) =>
        if x.isStr then
          dictSet (dictRemove recipe "ingredients") "ingredientStrings" (.list (x :: xs))
        else recipe
    | _ => recipe
  else recipe

/-- `process_recipe_fields` (firebase/upload.py lines 69-109): the
guarded `ingredients` move, the unconditional `procesedIngredients`
rename (the same line pair as in validation.py, hence the shared
`moveProcesedKey`), then the nutrients and numServings normalizations
(identical blocks in both modules, hence the shared steps). -/
def process_recipe_fields (recipe : Record) : Record :=
  servingsStep (nutrientsStep (moveProcesedKey (guardedMoveIngredients recipe)))

/-- Caller-visible state of the argument dict after
`process_recipe_fields` returns.  In the source every rewrite
(`recipe[...] = ...`, `recipe.pop(...)`) is performed on the argument
object itself and that same object is returned, so after the call the
caller's record is the normalized record, not the original. -/
def process_recipe_fields_post (recipe : Record) : Record :=
  process_recipe_fields recipe

/-! ## `plaite.models.recipe`

The pydantic models.  Field parsing follows pydantic v2 smart-mode
coercion for the types involved: a `str` field accepts exactly
strings; `float | None` accepts `None`, ints and floats (booleans are
rejected); `int | None` accepts `None`, ints, and floats with no
fractional part; extra dict keys are ignored; missing keys take the
declared defaults. -/

structure Nutrient where
  name : String
  quantity : String
  deriving Repr

structure FoodCodes where
  ingredientID : Option String
  deriving Repr

structure Ingredient where
  quantity : Option ℚ
  unit : Option String
  displayString : Option String
  foodCodes : Option FoodCodes
  deriving Repr

structure IngredientGroup where
  ingredients : List String
  purpose : Option String
  deriving Repr

def toStr : Value → Except String String
  | .str s => .ok s
  | _ => .error "expected str"

def toOptStr : Value → Except String (Option String)
  | .none => .ok Option.none
  | .str s => .ok (some s)
  | _ => .error "expected str or None"

def toListStr : Value → Except String (List String)
  | .list xs => xs.mapM fun v =>
      match v with
      | .str s => Except.ok s
      | _ => Except.error "expected str"
  | _ => .error "expected list of str"

def toOptFloat : Value → Except String (Option ℚ)
  | .none => .ok Option.none
  | .int n => .ok (some (n : ℚ))
  | .float q => .ok (some q)
  | _ => .error "expected float or None"

def toOptInt : Value → Except String (Option ℤ)
  | .none => .ok Option.none
  | .int n => .ok (some n)
  | .float q => if q.den = 1 then .ok (some q.num) else .error "expected int"
  | _ => .error "expected int or None"

def toListFloat : Value → Except String (List ℚ)
  | .list xs => xs.mapM fun v =>
      match v with
      | .int n => Except.ok (n : ℚ)
      | .float q => Except.ok q
      | _ => Except.error "expected float"
  | _ => .error "expected list of float"

def Nutrient.ofValue : Value → Except String Nutrient
  | .dict es => do
      let n ← match dictGet es "name" with
        | some (.str s) => Except.ok s
        | _ => Except.error "nutrient name must be a str"
      let q ← match dictGet es "quantity" with
        | some (.str s) => Except.ok s
        | _ => Except.error "nutrient quantity must be a str"
      .ok ⟨n, q⟩
  | _ => .error "expected nutrient dict"

def FoodCodes.ofValue : Value → Except String FoodCodes
  | .dict es => do
      let i ← toOptStr ((dictGet es "ingredientID").getD .none)
      .ok ⟨i⟩
  | _ => .error "expected foodCodes dict"

def Ingredient.ofValue : Value → Except String Ingredient
  | .dict es => do
      let q ← toOptFloat ((dictGet es "quantity").getD .none)
      let u ← toOptStr ((dictGet es "unit").getD .none)
      let d ← toOptStr ((dictGet es "displayString").getD .none)
      let f ← match (dictGet es "foodCodes").getD .none with
        | .none => Except.ok (Option.none : Option FoodCodes)
        | v => (FoodCodes.ofValue v).map some
      .ok ⟨q, u, d, f⟩
  | _ => .error "expected ingredient dict"

def IngredientGroup.ofValue : Value → Except String IngredientGroup
  | .dict es => do
      let i ← toListStr ((dictGet es "ingredients").getD (.list []))
      let p ← toOptStr ((dictGet es "purpose").getD .none)
      .ok ⟨i, p⟩
  | _ => .error "expected ingredient group dict"

def toListIngredient : Value → Except String (List Ingredient)
  | .list xs => xs.mapM Ingredient.ofValue
  | _ => .error "expected list of ingredients"

def toListIngredientGroup : Value → Except String (List IngredientGroup)
  | .list xs => xs.mapM IngredientGroup.ofValue
  | _ => .error "expected list of ingredient groups"

/-- `Recipe._normalize_nutrients` (recipe.py lines 74-83): `None` and
unrecognized shapes become `[]`, a dict becomes `{name, quantity:
str(value)}` pairs in iteration order, a list passes through. -/
def pydNormalizeNutrients : Value → Value
  | .none => .list []
  | .dict es => .list (es.map nutrientsEntryToDict)
  | .list xs => .list xs
  | _ => .list []

/-- `Recipe._normalize_servings` (recipe.py lines 85-97): `None` stays
`None`; `isinstance(v, (int, float))` values — including booleans — are
coerced with `float(v)`; strings are parsed via `\d+\.?\d*`; anything
else becomes `None`. -/
def pydNormalizeServings : Value → Value
  | .none => .none
  | .int n => .float (n : ℚ)
  | .float q => .float q
  | .bool b => .float (if b then 1 else 0)
  | .str s =>
      match pyFindNumber s.data with
      | some t => .float (parseDecimal t)
      | Option.none => .none
  | _ => .none

/-- The nutrients field after the `mode="before"` validator and the
element-wise coercion to `Nutrient`. -/
def nutrientsField (v : Value) : Except String (List Nutrient) :=
  match pydNormalizeNutrients v with
  | .list xs => xs.mapM Nutrient.ofValue
  | _ => .error "nutrients"

/-- The numServings field after the `mode="before"` validator and the
`float | None` check (always satisfied by the validator's output). -/
def servingsField (v : Value) : Except String (Option ℚ) :=
  match pydNormalizeServings v with
  | .none => .ok Option.none
  | .float q => .ok (some q)
  | _ => .error "numServings"

/-- The `Recipe` pydantic model (recipe.py lines 29-105). -/
structure Recipe where
  id : String
  uuid : Option String
  title : String
  description : Option String
  url : Option String
  host : Option String
  image : Option String
  author : Option String
  instructions : List String
  ingredientGroups : List IngredientGroup
  ingredientStrings : List String
  ingredients : List Ingredient
  tags : List String
  cookingMethod : Option String
  nutrients : List Nutrient
  healthScore : Option ℚ
  healthGrade : Option String
  numServings : Option ℚ
  cookTime : Option ℤ
  prepTime : Option ℤ
  totalTime : Option ℤ
  ratings : Option ℚ
  ratingsCount : Option ℤ
  embedding : List ℚ
  cluster_id : Option ℤ
  channel : String
  deriving Repr

/-- The `ingredient_strings` local of `from_raw` (recipe.py lines
117-120): `data.get("ingredientStrings") or []`, replaced by the raw
`ingredients` list when falsy, the raw list is non-empty, and its
first element is a string. -/
def fromRawIngredientStrings (data : Record) : Value :=
  let raw_ingredients := (dictGet data "ingredients").getD .none
  let is0 := Value.pyOr ((dictGet data "ingredientStrings").getD .none) (.list [])
  if !is0.truthy then
    match raw_ingredients with
    | .list (x :: xs) => if x.isStr then Value.list (x :: xs) else is0
    | _ => is0
  else is0

/-- The `structured_ingredients` local of `from_raw` (recipe.py lines
122-126): `procesedIngredients` when it is a list, else the raw
`ingredients` list when non-empty with a dict first element, else `[]`. -/
def fromRawStructured (data : Record) : Value :=
  let raw_ingredients := (dictGet data "ingredients").getD .none
  match (dictGet data "procesedIngredients").getD .none with
  | .list xs => Value.list xs
  | _ =>
      match raw_ingredients with
      | .list (x :: xs) => if x.isDict then Value.list (x :: xs) else Value.list []
      | _ => Value.list []

/-- First group of `from_raw` field conversions (identity/headline
fields).  `from_raw` is split into three groups purely to keep term
elaboration tractable; together they are the field mapping of
recipe.py lines 128-155. -/
def fromRawHead (data : Record) :
    Except String (String × Option String × String × Option String ×
      Option String × Option String × Option String × Option String) := do
  let idv ← toStr (Value.pyOr ((dictGet data "id").getD .none)
    ((dictGet data "recipe_id").getD .none))
  let uuidv ← toOptStr ((dictGet data "uuid").getD .none)
  let titlev ← toStr (Value.pyOr ((dictGet data "title").getD .none) (.str "Unknown"))
  let descriptionv ← toOptStr ((dictGet data "description").getD .none)
  let urlv ← toOptStr ((dictGet data "url").getD .none)
  let hostv ← toOptStr ((dictGet data "host").getD .none)
  let imagev ← toOptStr ((dictGet data "image").getD .none)
  let authorv ← toOptStr ((dictGet data "author").getD .none)
  .ok (idv, uuidv, titlev, descriptionv, urlv, hostv, imagev, authorv)

/-- Second group of `from_raw` field conversions (content fields). -/
def fromRawContent (data : Record) :
    Except String (List String × List IngredientGroup × List String ×
      List Ingredient × List String × Option String × List Nutrient) := do
  let instructionsv ← toListStr (Value.pyOr ((dictGet data "instructions").getD .none) (.list []))
  let groupsv ← toListIngredientGroup
    (Value.pyOr ((dictGet data "ingredientGroups").getD .none) (.list []))
  let ingredientStringsv ← toListStr (fromRawIngredientStrings data)
  let ingredientsv ← toListIngredient (fromRawStructured data)
  let tagsv ← toListStr (Value.pyOr ((dictGet data "tags").getD .none) (.list []))
  let cookingMethodv ← toOptStr ((dictGet data "cookingMethod").getD .none)
  let nutrientsv ← nutrientsField ((dictGet data "nutrients").getD .none)
  .ok (instructionsv, groupsv, ingredientStringsv, ingredientsv, tagsv,
    cookingMethodv, nutrientsv)

/-- Third group of `from_raw` field conversions (numeric/meta fields). -/
def fromRawNumbers (data : Record) :
    Except String (Option ℚ × Option String × Option ℚ × Option ℤ ×
      Option ℤ × Option ℤ × Option ℚ × Option ℤ) := do
  let healthScorev ← toOptFloat ((dictGet data "healthScore").getD .none)
  let healthGradev ← toOptStr ((dictGet data "healthGrade").getD .none)
  let numServingsv ← servingsField ((dictGet data "numServings").getD .none)
  let cookTimev ← toOptInt ((dictGet data "cookTime").getD .none)
  let prepTimev ← toOptInt ((dictGet data "prepTime").getD .none)
  let totalTimev ← toOptInt ((dictGet data "totalTime").getD .none)
  let ratingsv ← toOptFloat ((dictGet data "ratings").getD .none)
  let ratingsCountv ← toOptInt ((dictGet data "ratingsCount").getD .none)
  .ok (healthScorev, healthGradev, numServingsv, cookTimev, prepTimev,
    totalTimev, ratingsv, ratingsCountv)

/-- Fourth group of `from_raw` field conversions (ML/app fields). -/
def fromRawTail (data : Record) :
    Except String (List ℚ × Option ℤ × String) := do
  let embeddingv ← toListFloat (Value.pyOr ((dictGet data "embedding").getD .none) (.list []))
  let cluster_idv ← toOptInt ((dictGet data "cluster_id").getD .none)
  let channelv ← toStr (Value.pyOr ((dictGet data "channel").getD .none) (.str "discover"))
  .ok (embeddingv, cluster_idv, channelv)

/-- `_ensure_ingredient_strings` (recipe.py lines 99-105), the
`mode="after"` model validator: when `ingredientStrings` is empty and
structured `ingredients` exist, derive the strings from the truthy
`displayString`s. -/
def ensureIngredientStrings (ingredientStringsv : List String)
    (ingredientsv : List Ingredient) : List String :=
  if ingredientStringsv.isEmpty && !ingredientsv.isEmpty then
    ingredientsv.filterMap fun ing =>
      match ing.displayString with
      | some s => if s = "" then Option.none else some s
      | Option.none => Option.none
  else ingredientStringsv

/-- `Recipe.from_raw` (recipe.py lines 108-155) composed with model
construction: the explicit field mapping, then the pydantic field
validators, then the `mode="after"` validator
`_ensure_ingredient_strings`.  A pydantic `ValidationError` at
construction is modelled as `Except.error`. -/
def Recipe.from_raw (data : Record) : Except String Recipe := do
  let (idv, uuidv, titlev, descriptionv, urlv, hostv, imagev, authorv) ← fromRawHead data
  let (instructionsv, groupsv, ingredientStringsv, ingredientsv, tagsv,
    cookingMethodv, nutrientsv) ← fromRawContent data
  let (healthScorev, healthGradev, numServingsv, cookTimev, prepTimev,
    totalTimev, ratingsv, ratingsCountv) ← fromRawNumbers data
  let (embeddingv, cluster_idv, channelv) ← fromRawTail data
  .ok (Recipe.mk idv uuidv titlev descriptionv urlv hostv imagev authorv
    instructionsv groupsv (ensureIngredientStrings ingredientStringsv ingredientsv)
    ingredientsv tagsv cookingMethodv nutrientsv healthScorev healthGradev
    numServingsv cookTimev prepTimev totalTimev ratingsv ratingsCountv
    embeddingv cluster_idv channelv)

/-- `not self.uuid`: falsy when `None` or the empty string. -/
def uuidFalsy (r : Recipe) : Bool :=
  match r.uuid with
  | some s => s = ""
  | Option.none => true

/-- The error list accumulated by `Recipe.validate` (recipe.py lines
157-182), in source order; the source appends each message under its
own `if`, which is the concatenation below. -/
def validateViolations (r : Recipe) : List String :=
  (if r.id = "" then ["id is required"] else []) ++
  (if uuidFalsy r then ["uuid is required"] else []) ++
  (if r.title = "" then ["title is required"] else []) ++
  (if r.ingredients.isEmpty then ["ingredients are required structured"] else []) ++
  (if r.ingredientStrings.isEmpty then ["ingredient strings are required"] else []) ++
  (if r.nutrients.isEmpty then ["nutrients are required"] else [])

/-- `Recipe.validate` (recipe.py lines 157-182): raises `ValueError`
with all collected messages joined by `"; "` when any check fails. -/
def Recipe.validate (r : Recipe) : Except String Unit :=
  let errors := validateViolations r
  if errors.isEmpty then .ok () else .error (String.intercalate "; " errors)

/-! ## `plaite.pipeline.upload` -/

/-- `UploadResult` (pipeline/upload.py lines 20-28).  The source keeps
one `failed` list that receives validation failures first and upload
failures afterwards; here the two phases are kept separate
(`failedValidation ++ failedUpload` is the source's `failed`), which
is what the batch invariant is stated about.  A `skipped` entry
`{"id": rid}` is modelled by its id value `rid`. -/
structure UploadResult where
  total_selected : ℕ
  total_valid : ℕ
  uploaded : ℕ
  failedValidation : List (Value × String)
  failedUpload : List (Value × String)
  skipped : List Value
  deriving Repr

/-- First half of the `_map_local_to_firebase` dict literal
(pipeline/upload.py lines 200-212); the literal is split in two purely
to keep elaboration fast. -/
def mapLocalHead (recipe : Record) : Record :=
  [("id", (dictGet recipe "recipe_id").getD .none),
   ("title", (dictGet recipe "title").getD .none),
   ("description", (dictGet recipe "description").getD .none),
   ("url", (dictGet recipe "url").getD .none),
   ("host", (dictGet recipe "host").getD .none),
   ("image", (dictGet recipe "image").getD .none),
   ("author", (dictGet recipe "author").getD .none),
   ("instructions", (dictGet recipe "instructions").getD (.list [])),
   ("ingredientGroups", (dictGet recipe "ingredientGroups").getD (.list [])),
   ("ingredients", (dictGet recipe "ingredientStrings").getD (.list [])),
   ("procesedIngredients", (dictGet recipe "procesedIngredients").getD (.list [])),
   ("tags", (dictGet recipe "tags").getD (.list []))]

/-- Second half of the `_map_local_to_firebase` dict literal
(pipeline/upload.py lines 213-223). -/
def mapLocalTail (recipe : Record) : Record :=
  [("cookingMethod", (dictGet recipe "cookingMethod").getD .none),
   ("nutrients", (dictGet recipe "nutrients").getD (.list [])),
   ("healthScore", (dictGet recipe "healthScore").getD .none),
   ("healthGrade", (dictGet recipe "healthGrade").getD .none),
   ("numServings", (dictGet recipe "numServings").getD .none),
   ("cookTime", (dictGet recipe "cookTime").getD .none),
   ("prepTime", (dictGet recipe "prepTime").getD .none),
   ("totalTime", (dictGet recipe "totalTime").getD .none),
   ("ratings", (dictGet recipe "ratings").getD .none),
   ("ratingsCount", (dictGet recipe "ratingsCount").getD .none),
   ("channel", .str "discover")]

/-- `_map_local_to_firebase` (pipeline/upload.py lines 198-224): the
fixed 23-key dict literal mapping the local table schema to the
Firebase schema (note `ingredients` is populated from the local
`ingredientStrings`, and `procesedIngredients` is carried through). -/
def map_local_to_firebase (recipe : Record) : Record :=
  mapLocalHead recipe ++ mapLocalTail recipe

/-- `r.get("recipe_id") in uploaded_ids`: the uploaded-id set holds
Firestore document ids, which are strings, so a missing key
(`None`) or a non-string value is never a member. -/
def recipeIdIn (r : Record) (uploaded_ids : List String) : Bool :=
  match (dictGet r "recipe_id").getD .none with
  | .str s => uploaded_ids.contains s
  | _ => false

/-- One iteration of the Firestore upload loop (pipeline/upload.py
lines 175-188), state `(uploaded, batch_count, upload failures)`.
`collection.document`, `batch.set` and `batch.commit` are external
collaborators modelled as non-failing; the one exception the loop body
itself raises is the `KeyError` from `recipe["id"]` when a valid
recipe lacks an `id` key (the validator does not require one), which
the `except` clause turns into a failed entry with
`recipe.get("id") = None` and `str(e) = "'id'"`. -/
def uploadStep (batch_size : ℕ) (st : ℕ × ℕ × List (Value × String))
    (recipe : Record) : ℕ × ℕ × List (Value × String) :=
  match dictGet recipe "id" with
  | some _ =>
      let bc := st.2.1 + 1
      if batch_size ≤ bc then (st.1 + bc, 0, st.2.2) else (st.1, bc, st.2.2)
  | Option.none => (st.1, st.2.1, st.2.2 ++ [(Value.none, "\x27id\x27")])

/-- The upload loop over the valid recipes, from the initial state
`uploaded = 0`, `batch_count = 0`, no failures. -/
def uploadLoop (batch_size : ℕ) (valid : List Record) :
    ℕ × ℕ × List (Value × String) :=
  valid.foldl (uploadStep batch_size) (0, 0, [])

/-- The validate-and-upload part of `upload_recipes_to_firebase`
(pipeline/upload.py lines 138-195), after the duplicate filter has
produced `skipped` and `toProcess`: the early return for an empty
batch, the validation loop, the early return when nothing is valid,
and the batched Firestore upload loop. -/
def uploadPhase2 (total_selected : ℕ) (skipped : List Value)
    (toProcess : List Record) (batch_size : ℕ) : UploadResult :=
  if toProcess.isEmpty then
    ⟨total_selected, 0, 0, [], [], skipped⟩
  else
    let results := toProcess.map
      (fun r => (r, validate_and_transform_recipe (map_local_to_firebase r)))
    -- `valid_recipes.append(validation_result.recipe)`: on the valid
    -- branch `recipe` is always `some`.
    let valid_recipes := results.filterMap
      (fun p => if p.2.is_valid then p.2.recipe else Option.none)
    let failedV := results.filterMap
      (fun p => if p.2.is_valid then Option.none else
        some ((dictGet p.1 "recipe_id").getD .none,
          String.intercalate "; " (p.2.errors.map (fun e => e.error))))
    let total_valid := valid_recipes.length
    if valid_recipes.isEmpty then
      ⟨total_selected, total_valid, 0, failedV, [], skipped⟩
    else
      let st := uploadLoop batch_size valid_recipes
      let uploaded := if 0 < st.2.1 then st.1 + st.2.1 else st.1
      ⟨total_selected, total_valid, uploaded, failedV, st.2.2, skipped⟩

/-- `upload_recipes_to_firebase` (pipeline/upload.py lines 92-195).
The Firestore collaborators (`get_uploaded_recipe_ids`, the batch
writer) appear as the `uploaded_ids` parameter and the non-failing
model of `uploadStep`; console output is dropped.  Lines 118-136 (the
duplicate filter) are here; the rest is `uploadPhase2`. -/
def upload_recipes_to_firebase (recipes : List Record)
    (uploaded_ids : List String) (exclude_uploaded : Bool)
    (batch_size : ℕ) : UploadResult :=
  let skipped :=
    if exclude_uploaded then
      (recipes.filter (fun r => recipeIdIn r uploaded_ids)).map
        (fun r => (dictGet r "recipe_id").getD .none)
    else []
  let toProcess :=
    if exclude_uploaded then recipes.filter (fun r => !recipeIdIn r uploaded_ids)
    else recipes
  uploadPhase2 recipes.length skipped toProcess batch_size

/-! ## Equation lemmas for the normalization steps -/

theorem moveIngredientsKey_of_some (rd : Record) (v : Value)
    (h : dictGet rd "ingredients" = some v) :
    moveIngredientsKey rd = dictSet (dictRemove rd "ingredients") "ingredientStrings" v := by
  unfold moveIngredientsKey; rw [h]

theorem moveIngredientsKey_of_none (rd : Record)
    (h : dictGet rd "ingredients" = Option.none) :
    moveIngredientsKey rd = rd := by
  unfold moveIngredientsKey; rw [h]

theorem moveProcesedKey_of_some (rd : Record) (v : Value)
    (h : dictGet rd "procesedIngredients" = some v) :
    moveProcesedKey rd = dictSet (dictRemove rd "procesedIngredients") "ingredients" v := by
  unfold moveProcesedKey; rw [h]

theorem moveProcesedKey_of_none (rd : Record)
    (h : dictGet rd "procesedIngredients" = Option.none) :
    moveProcesedKey rd = rd := by
  unfold moveProcesedKey; rw [h]

theorem moveProcesedKey_get_other (rd : Record) (k : String)
    (h1 : k ≠ "ingredients") (h2 : k ≠ "procesedIngredients") :
    dictGet (moveProcesedKey rd) k = dictGet rd k := by
  cases hp : dictGet rd "procesedIngredients" with
  | none => rw [moveProcesedKey_of_none rd hp]
  | some v =>
      rw [moveProcesedKey_of_some rd v hp,
        dictGet_dictSet_other _ _ _ _ (fun he => h1 he.symm),
        dictGet_dictRemove_other _ _ _ (fun he => h2 he.symm)]

theorem nutrientsStep_of_dict (rd : Record) (es : List (String × Value))
    (h : dictGet rd "nutrients" = some (.dict es)) :
    nutrientsStep rd = dictSet rd "nutrients" (.list (es.map nutrientsEntryToDict)) := by
  unfold nutrientsStep; rw [h]

theorem nutrientsStep_of_list (rd : Record) (xs : List Value)
    (h : dictGet rd "nutrients" = some (.list xs)) :
    nutrientsStep rd = rd := by
  unfold nutrientsStep; rw [h]

theorem nutrientsStep_of_none (rd : Record)
    (h : dictGet rd "nutrients" = Option.none) :
    nutrientsStep rd = rd := by
  unfold nutrientsStep; rw [h]

theorem nutrientsStep_of_other (rd : Record) (v : Value)
    (h : dictGet rd "nutrients" = some v)
    (h1 : v.isDict = false) (h2 : v.isList = false) :
    nutrientsStep rd = dictSet rd "nutrients" (.list []) := by
  unfold nutrientsStep
  rw [h]
  cases v <;> simp_all [Value.isDict, Value.isList]

theorem nutrientsStep_get_other (rd : Record) (k : String) (hk : k ≠ "nutrients") :
    dictGet (nutrientsStep rd) k = dictGet rd k := by
  unfold nutrientsStep
  cases h : dictGet rd "nutrients" with
  | none => rfl
  | some v =>
      cases v <;>
        simp [dictGet_dictSet_other _ _ _ _ (fun he => hk he.symm)]

theorem servingsStep_of_str (rd : Record) (s : String)
    (h : dictGet rd "numServings" = some (.str s)) :
    servingsStep rd = dictSet rd "numServings" (servingsOfStr s) := by
  unfold servingsStep; rw [h]

theorem servingsStep_of_int (rd : Record) (n : ℤ)
    (h : dictGet rd "numServings" = some (.int n)) :
    servingsStep rd = rd := by
  unfold servingsStep; rw [h]

theorem servingsStep_of_float (rd : Record) (q : ℚ)
    (h : dictGet rd "numServings" = some (.float q)) :
    servingsStep rd = rd := by
  unfold servingsStep; rw [h]

theorem servingsStep_of_none (rd : Record)
    (h : dictGet rd "numServings" = Option.none) :
    servingsStep rd = rd := by
  unfold servingsStep; rw [h]

theorem servingsStep_of_other (rd : Record) (v : Value)
    (h : dictGet rd "numServings" = some v)
    (h1 : v.isStr = false) (h2 : v.isNumeric = false) :
    servingsStep rd = dictSet rd "numServings" Value.none := by
  unfold servingsStep
  rw [h]
  cases v <;> simp_all [Value.isStr, Value.isNumeric]

theorem servingsStep_get_other (rd : Record) (k : String) (hk : k ≠ "numServings") :
    dictGet (servingsStep rd) k = dictGet rd k := by
  unfold servingsStep
  cases h : dictGet rd "numServings" with
  | none => rfl
  | some v =>
      cases v <;>
        simp [dictGet_dictSet_other _ _ _ _ (fun he => hk he.symm)]

theorem guardedMoveIngredients_fires (r : Record) (x : Value) (xs : List Value)
    (hno : dictGet r "ingredientStrings" = Option.none)
    (hi : dictGet r "ingredients" = some (Value.list (x :: xs)))
    (hx : x.isStr = true) :
    guardedMoveIngredients r =
      dictSet (dictRemove r "ingredients") "ingredientStrings" (Value.list (x :: xs)) := by
  unfold guardedMoveIngredients
  have hg : (hasKey r "ingredients" && !hasKey r "ingredientStrings") = true := by
    simp [hasKey, hi, hno]
  rw [hg, if_pos rfl, hi]
  simp [hx]

theorem guardedMoveIngredients_skipped (r : Record)
    (hs : (dictGet r "ingredientStrings").isSome = true) :
    guardedMoveIngredients r = r := by
  unfold guardedMoveIngredients
  have hg : (hasKey r "ingredients" && !hasKey r "ingredientStrings") = false := by
    simp [hasKey, hs]
  rw [hg]
  simp

/-! ## Helper lemmas about key contents after the rename phase -/

theorem renameIngredientFields_get_ingredientStrings (r : Record) (v : Value)
    (h : dictGet r "ingredients" = some v) :
    dictGet (renameIngredientFields r) "ingredientStrings" = some v := by
  unfold renameIngredientFields
  rw [moveIngredientsKey_of_some r v h,
    moveProcesedKey_get_other _ _ (by decide) (by decide)]
  exact dictGet_dictSet_self _ _ _

theorem renameIngredientFields_get_ingredients (r : Record) (w : Value)
    (h : dictGet r "procesedIngredients" = some w) :
    dictGet (renameIngredientFields r) "ingredients" = some w := by
  unfold renameIngredientFields
  have hp : dictGet (moveIngredientsKey r) "procesedIngredients" = some w := by
    cases hi : dictGet r "ingredients" with
    | none => rw [moveIngredientsKey_of_none r hi]; exact h
    | some v =>
        rw [moveIngredientsKey_of_some r v hi,
          dictGet_dictSet_other _ _ _ _ (by decide),
          dictGet_dictRemove_other _ _ _ (by decide)]
        exact h
  rw [moveProcesedKey_of_some _ w hp]
  exact dictGet_dictSet_self _ _ _

theorem process_preserves_ingredientStrings (r : Record) (u : Value)
    (h : dictGet r "ingredientStrings" = some u) :
    dictGet (process_recipe_fields r) "ingredientStrings" = some u := by
  unfold process_recipe_fields
  rw [guardedMoveIngredients_skipped r (by simp [h]),
    servingsStep_get_other _ _ (by decide), nutrientsStep_get_other _ _ (by decide),
    moveProcesedKey_get_other _ _ (by decide) (by decide)]
  exact h

theorem process_moved_ingredientStrings (r : Record) (x : Value) (xs : List Value)
    (hno : dictGet r "ingredientStrings" = Option.none)
    (hi : dictGet r "ingredients" = some (Value.list (x :: xs)))
    (hx : x.isStr = true) :
    dictGet (process_recipe_fields r) "ingredientStrings" =
      some (Value.list (x :: xs)) := by
  unfold process_recipe_fields
  rw [guardedMoveIngredients_fires r x xs hno hi hx,
    servingsStep_get_other _ _ (by decide), nutrientsStep_get_other _ _ (by decide),
    moveProcesedKey_get_other _ _ (by decide) (by decide)]
  exact dictGet_dictSet_self _ _ _

theorem process_moved_ingredients (r : Record) (x : Value) (xs : List Value) (w : Value)
    (hno : dictGet r "ingredientStrings" = Option.none)
    (hi : dictGet r "ingredients" = some (Value.list (x :: xs)))
    (hx : x.isStr = true)
    (hp : dictGet r "procesedIngredients" = some w) :
    dictGet (process_recipe_fields r) "ingredients" = some w := by
  unfold process_recipe_fields
  rw [guardedMoveIngredients_fires r x xs hno hi hx,
    servingsStep_get_other _ _ (by decide), nutrientsStep_get_other _ _ (by decide)]
  have hp' : dictGet (dictSet (dictRemove r "ingredients") "ingredientStrings"
      (Value.list (x :: xs))) "procesedIngredients" = some w := by
    rw [dictGet_dictSet_other _ _ _ _ (by decide),
      dictGet_dictRemove_other _ _ _ (by decide)]
    exact hp
  rw [moveProcesedKey_of_some _ w hp']
  exact dictGet_dictSet_self _ _ _

/-! ## Claim C1 -/

/-- Claim C1, counterexample: the claim says the move to
`ingredientStrings` happens "only when `ingredientStrings` is not
already present (it never overwrites existing data)".  But in
`validate_and_transform_recipe` (validation.py lines 51-53) the rename
is unconditional: on a record that already carries
`ingredientStrings = ["old"]` together with `ingredients = ["2 eggs"]`,
the existing value is overwritten with `["2 eggs"]`. -/
theorem claim_C1_counterexample :
    dictGet (renameIngredientFields
      [("ingredientStrings", Value.list [Value.str "old"]),
       ("ingredients", Value.list [Value.str "2 eggs"])]) "ingredientStrings" =
      some (Value.list [Value.str "2 eggs"]) ∧
    Value.list [Value.str "2 eggs"] ≠ Value.list [Value.str "old"] :=
  ⟨rfl, by simp⟩

/-- Claim C1 (amended): the two cited normalizers differ.  In
`validate_and_transform_recipe` the `ingredients` value is moved to
`ingredientStrings` unconditionally whenever the key is present,
overwriting any existing `ingredientStrings` (first conjunct).  In
`process_recipe_fields` the move happens only when `ingredientStrings`
is absent and `ingredients` is a non-empty list whose first element is
a string — elements past the first are not checked (third conjunct) —
and an existing `ingredientStrings` value is never overwritten (second
conjunct). -/
theorem claim_C1_amended :
    (∀ r : Record, ∀ v : Value, dictGet r "ingredients" = some v →
      dictGet (renameIngredientFields r) "ingredientStrings" = some v) ∧
    (∀ r : Record, ∀ u : Value, dictGet r "ingredientStrings" = some u →
      dictGet (process_recipe_fields r) "ingredientStrings" = some u) ∧
    (∀ r : Record, ∀ x : Value, ∀ xs : List Value,
      dictGet r "ingredientStrings" = Option.none →
      dictGet r "ingredients" = some (Value.list (x :: xs)) →
      x.isStr = true →
      dictGet (process_recipe_fields r) "ingredientStrings" =
        some (Value.list (x :: xs))) :=
  ⟨renameIngredientFields_get_ingredientStrings,
   process_preserves_ingredientStrings,
   process_moved_ingredientStrings⟩

/-- Claim C1 amended, witness: at a record with `ingredientStrings`
present and a mixed ingredients list, `process_recipe_fields` keeps the
existing `ingredientStrings`. -/
theorem claim_C1_amended_witness :
    dictGet (process_recipe_fields
      [("ingredientStrings", Value.list [Value.str "old"]),
       ("ingredients", Value.list [Value.str "2 eggs", Value.int 5])])
      "ingredientStrings" = some (Value.list [Value.str "old"]) :=
  claim_C1_amended.2.1
    [("ingredientStrings", Value.list [Value.str "old"]),
     ("ingredients", Value.list [Value.str "2 eggs", Value.int 5])]
    (Value.list [Value.str "old"]) rfl

/-! ## Claim C6 -/

/-- Claim C6, counterexample: the claim asserts that for *every*
record holding both a bare-string `ingredients` list and a structured
`procesedIngredients` list, normalization ends with `ingredientStrings`
equal to the bare-string list.  `process_recipe_fields` contradicts
this when `ingredientStrings` is already present: the guard blocks the
move and the pre-existing value (`["old"]`, not `["2 eggs"]`) survives. -/
theorem claim_C6_counterexample :
    dictGet (process_recipe_fields
      [("ingredients", Value.list [Value.str "2 eggs"]),
       ("ingredientStrings", Value.list [Value.str "old"]),
       ("procesedIngredients", Value.list [Value.dict [("name", Value.str "water")]])])
      "ingredientStrings" = some (Value.list [Value.str "old"]) ∧
    Value.list [Value.str "old"] ≠ Value.list [Value.str "2 eggs"] :=
  ⟨rfl, by simp⟩

/-- Claim C6 (amended): rename precedence.  In
`validate_and_transform_recipe`'s rename phase the outcome claimed —
`ingredientStrings` = the original `ingredients` value and
`ingredients` = the `procesedIngredients` value, which unconditionally
wins the slot — holds for every record carrying both keys (first
conjunct).  In `process_recipe_fields` it holds only when
`ingredientStrings` is not already present and the bare list is
non-empty with a string first element (second conjunct);
`procesedIngredients` still wins the `ingredients` slot
unconditionally there (it is part of that conjunct). -/
theorem claim_C6_amended :
    (∀ r : Record, ∀ v w : Value, dictGet r "ingredients" = some v →
      dictGet r "procesedIngredients" = some w →
      dictGet (renameIngredientFields r) "ingredientStrings" = some v ∧
      dictGet (renameIngredientFields r) "ingredients" = some w) ∧
    (∀ r : Record, ∀ x : Value, ∀ xs : List Value, ∀ w : Value,
      dictGet r "ingredientStrings" = Option.none →
      dictGet r "ingredients" = some (Value.list (x :: xs)) →
      x.isStr = true →
      dictGet r "procesedIngredients" = some w →
      dictGet (process_recipe_fields r) "ingredientStrings" =
        some (Value.list (x :: xs)) ∧
      dictGet (process_recipe_fields r) "ingredients" = some w) := by
  constructor
  · intro r v w hv hw
    exact ⟨renameIngredientFields_get_ingredientStrings r v hv,
      renameIngredientFields_get_ingredients r w hw⟩
  · intro r x xs w hno hi hx hp
    exact ⟨process_moved_ingredientStrings r x xs hno hi hx,
      process_moved_ingredients r x xs w hno hi hx hp⟩

/-- Claim C6 amended, witness: the spec's own example, `ingredients =
["2 eggs"]` next to a structured `procesedIngredients`, through both
normalizers. -/
theorem claim_C6_amended_witness :
    dictGet (renameIngredientFields
      [("ingredients", Value.list [Value.str "2 eggs"]),
       ("procesedIngredients", Value.list [Value.dict [("name", Value.str "water")]])])
      "ingredientStrings" = some (Value.list [Value.str "2 eggs"]) ∧
    dictGet (process_recipe_fields
      [("ingredients", Value.list [Value.str "2 eggs"]),
       ("procesedIngredients", Value.list [Value.dict [("name", Value.str "water")]])])
      "ingredients" = some (Value.list [Value.dict [("name", Value.str "water")]]) :=
  ⟨(claim_C6_amended.1
      [("ingredients", Value.list [Value.str "2 eggs"]),
       ("procesedIngredients", Value.list [Value.dict [("name", Value.str "water")]])]
      (Value.list [Value.str "2 eggs"])
      (Value.list [Value.dict [("name", Value.str "water")]]) rfl rfl).1,
   (claim_C6_amended.2
      [("ingredients", Value.list [Value.str "2 eggs"]),
       ("procesedIngredients", Value.list [Value.dict [("name", Value.str "water")]])]
      (Value.str "2 eggs") []
      (Value.list [Value.dict [("name", Value.str "water")]]) rfl rfl rfl rfl).2⟩

/-! ## Claim C2 -/

/-- Claim C2, counterexample: normalization is not idempotent.  On
`r = {procesedIngredients: ["2 eggs"]}` (a bare-string list under the
legacy key), the first `process_recipe_fields` pass renames it to
`ingredients`; the second pass then sees a non-empty string list under
`ingredients` with no `ingredientStrings` and moves it again, so
`normalize(normalize(r)) ≠ normalize(r)` — the two results even have
different key sets, so the inequality also holds under Python's
order-insensitive dict equality. -/
theorem claim_C2_counterexample :
    dictGet (process_recipe_fields
      [("procesedIngredients", Value.list [Value.str "2 eggs"])]) "ingredients" =
      some (Value.list [Value.str "2 eggs"]) ∧
    dictGet (process_recipe_fields (process_recipe_fields
      [("procesedIngredients", Value.list [Value.str "2 eggs"])])) "ingredients" =
      Option.none ∧
    process_recipe_fields (process_recipe_fields
      [("procesedIngredients", Value.list [Value.str "2 eggs"])]) ≠
      process_recipe_fields [("procesedIngredients", Value.list [Value.str "2 eggs"])] := by
  refine ⟨rfl, rfl, ?_⟩
  have h1 : process_recipe_fields
      [("procesedIngredients", Value.list [Value.str "2 eggs"])] =
      [("ingredients", Value.list [Value.str "2 eggs"])] := rfl
  have h2 : process_recipe_fields (process_recipe_fields
      [("procesedIngredients", Value.list [Value.str "2 eggs"])]) =
      [("ingredientStrings", Value.list [Value.str "2 eggs"])] := rfl
  rw [h2, h1]
  simp

/-- Claim C2 (amended): full idempotence fails (see the counterexample;
`validate_and_transform_recipe` even rejects already-normalized records,
since its unconditional rename empties the `ingredients` slot), but the
claim's second half survives for `process_recipe_fields`: a record that
is already canonical — `ingredientStrings` present as a list, no legacy
`procesedIngredients` key, `nutrients` absent or in list form, and
`numServings` absent, null, or a float — is returned unchanged. -/
theorem claim_C2_amended :
    ∀ r : Record, ∀ ss : List Value,
      dictGet r "ingredientStrings" = some (Value.list ss) →
      dictGet r "procesedIngredients" = Option.none →
      (dictGet r "nutrients" = Option.none ∨
        ∃ xs, dictGet r "nutrients" = some (Value.list xs)) →
      (dictGet r "numServings" = Option.none ∨
        dictGet r "numServings" = some Value.none ∨
        ∃ q, dictGet r "numServings" = some (Value.float q)) →
      process_recipe_fields r = r := by
  intro r ss hIS hPI hNut hServ
  unfold process_recipe_fields
  rw [guardedMoveIngredients_skipped r (by simp [hIS]), moveProcesedKey_of_none r hPI]
  have hn : nutrientsStep r = r := by
    rcases hNut with h | ⟨xs, h⟩
    · exact nutrientsStep_of_none r h
    · exact nutrientsStep_of_list r xs h
  rw [hn]
  rcases hServ with h | h | ⟨q, h⟩
  · exact servingsStep_of_none r h
  · rw [servingsStep_of_other r Value.none h rfl rfl]
    exact dictSet_self_eq r _ _ h
  · exact servingsStep_of_float r q h

/-- Claim C2 amended, witness: a concrete canonical record (string
`ingredientStrings`, structured `ingredients`, list nutrients, float
servings) is a fixed point of `process_recipe_fields`. -/
theorem claim_C2_amended_witness :
    process_recipe_fields
      [("ingredientStrings", Value.list [Value.str "2 eggs"]),
       ("ingredients", Value.list [Value.dict [("displayString", Value.str "2 eggs")]]),
       ("nutrients", Value.list []),
       ("numServings", Value.float 4)] =
      [("ingredientStrings", Value.list [Value.str "2 eggs"]),
       ("ingredients", Value.list [Value.dict [("displayString", Value.str "2 eggs")]]),
       ("nutrients", Value.list []),
       ("numServings", Value.float 4)] :=
  claim_C2_amended
    [("ingredientStrings", Value.list [Value.str "2 eggs"]),
     ("ingredients", Value.list [Value.dict [("displayString", Value.str "2 eggs")]]),
     ("nutrients", Value.list []),
     ("numServings", Value.float 4)]
    [Value.str "2 eggs"] rfl rfl (Or.inr ⟨[], rfl⟩) (Or.inr (Or.inr ⟨4, rfl⟩))

/-! ## Claim C9 -/

/-- Claim C9, counterexample: `process_recipe_fields` mutates the
caller's record.  In the source all rewrites target the argument dict
itself, so after the call the caller sees the normalized record
(`process_recipe_fields_post`); for `r = {ingredients: ["2 eggs"]}`
that post-state has no `ingredients` key while the pre-call record
does — the caller's record was changed in place. -/
theorem claim_C9_counterexample :
    dictGet (process_recipe_fields_post
      [("ingredients", Value.list [Value.str "2 eggs"])]) "ingredients" =
      Option.none ∧
    dictGet [("ingredients", Value.list [Value.str "2 eggs"])] "ingredients" =
      some (Value.list [Value.str "2 eggs"]) ∧
    process_recipe_fields_post [("ingredients", Value.list [Value.str "2 eggs"])] ≠
      [("ingredients", Value.list [Value.str "2 eggs"])] := by
  refine ⟨rfl, rfl, ?_⟩
  have h : process_recipe_fields_post [("ingredients", Value.list [Value.str "2 eggs"])] =
      [("ingredientStrings", Value.list [Value.str "2 eggs"])] := rfl
  rw [h]
  simp

/-- Claim C9 (amended): the copy-on-write contract holds for
`validate_and_transform_recipe` — it copies its input
(`recipe.copy()`) and writes only to the copy, so the caller's record
after the call equals the original (first conjunct) — but not for
`process_recipe_fields`, whose caller-visible post-state is the
normalized record itself (second conjunct), which differs from the
input whenever any rewrite fires (third conjunct gives a concrete
instance). -/
theorem claim_C9_amended :
    (∀ r : Record, (validate_and_transform_full r).1 = r) ∧
    (∀ r : Record, process_recipe_fields_post r = process_recipe_fields r) ∧
    dictGet (process_recipe_fields_post
      [("ingredients", Value.list [Value.str "2 eggs"])]) "ingredients" ≠
      dictGet [("ingredients", Value.list [Value.str "2 eggs"])] "ingredients" := by
  refine ⟨fun r => rfl, fun r => rfl, ?_⟩
  have h : dictGet (process_recipe_fields_post
      [("ingredients", Value.list [Value.str "2 eggs"])]) "ingredients" =
      Option.none := rfl
  rw [h]
  simp

/-! ## Claim C3 -/

/-- Claim C3 (confirmed): `validate_and_transform_recipe`
short-circuits in a fixed order over the renamed record.  Conjuncts:
(1) if any of `tags`/`instructions`/`ingredients` is missing, the
result is the single combined missing-fields error; (2) with all three
present, a non-list `tags` fails first with the `tags` error,
regardless of the other two fields' shapes; (3) then a non-list
`instructions`; (4) then a non-list `ingredients`; (5) with all three
well-typed, a missing `url` fails with the url error (nutrients and
servings having been normalized before that check, which a failure
makes unobservable since `recipe` is `None`); (6) every failing result
has `is_valid = false`, `recipe = None` and exactly one error entry. -/
theorem claim_C3 :
    (∀ r : Record,
      (hasKey (renameIngredientFields r) "tags" = false ∨
       hasKey (renameIngredientFields r) "instructions" = false ∨
       hasKey (renameIngredientFields r) "ingredients" = false) →
      validate_and_transform_recipe r =
        ⟨false, Option.none,
          [missingFieldsError ((dictGet r "id").getD (Value.str "unknown"))]⟩) ∧
    (∀ r : Record, ∀ v w2 w3 : Value,
      dictGet (renameIngredientFields r) "instructions" = some w2 →
      dictGet (renameIngredientFields r) "ingredients" = some w3 →
      dictGet (renameIngredientFields r) "tags" = some v →
      v.isList = false →
      validate_and_transform_recipe r =
        ⟨false, Option.none,
          [notAListError ((dictGet r "id").getD (Value.str "unknown")) "tags" v]⟩) ∧
    (∀ r : Record, ∀ v w w3 : Value,
      dictGet (renameIngredientFields r) "ingredients" = some w3 →
      dictGet (renameIngredientFields r) "tags" = some v →
      v.isList = true →
      dictGet (renameIngredientFields r) "instructions" = some w →
      w.isList = false →
      validate_and_transform_recipe r =
        ⟨false, Option.none,
          [notAListError ((dictGet r "id").getD (Value.str "unknown")) "instructions" w]⟩) ∧
    (∀ r : Record, ∀ v w u : Value,
      dictGet (renameIngredientFields r) "tags" = some v →
      v.isList = true →
      dictGet (renameIngredientFields r) "instructions" = some w →
      w.isList = true →
      dictGet (renameIngredientFields r) "ingredients" = some u →
      u.isList = false →
      validate_and_transform_recipe r =
        ⟨false, Option.none,
          [notAListError ((dictGet r "id").getD (Value.str "unknown")) "ingredients" u]⟩) ∧
    (∀ r : Record, ∀ v w u : Value,
      dictGet (renameIngredientFields r) "tags" = some v →
      v.isList = true →
      dictGet (renameIngredientFields r) "instructions" = some w →
      w.isList = true →
      dictGet (renameIngredientFields r) "ingredients" = some u →
      u.isList = true →
      hasKey (renameIngredientFields r) "url" = false →
      validate_and_transform_recipe r =
        ⟨false, Option.none,
          [missingUrlError ((dictGet r "id").getD (Value.str "unknown"))]⟩) ∧
    (∀ r : Record,
      (validate_and_transform_recipe r).is_valid = false →
      (validate_and_transform_recipe r).recipe = Option.none ∧
      (validate_and_transform_recipe r).errors.length = 1) := by
  refine ⟨?_, ?_, ?_, ?_, ?_, ?_⟩
  · intro r h
    rcases h with h | h | h <;> simp [validate_and_transform_recipe, h]
  · intro r v w2 w3 h2 h3 htags hv
    simp [validate_and_transform_recipe, hasKey, htags, h2, h3, hv]
  · intro r v w w3 h3 htags hv hinstr hw
    simp [validate_and_transform_recipe, hasKey, htags, hinstr, h3, hv, hw]
  · intro r v w u htags hv hinstr hw hingr hu
    simp [validate_and_transform_recipe, hasKey, htags, hinstr, hingr, hv, hw, hu]
  · intro r v w u htags hv hinstr hw hingr hu hurl
    have hurl' : hasKey (servingsStep (nutrientsStep (renameIngredientFields r)))
        "url" = false := by
      rw [hasKey, servingsStep_get_other _ _ (by decide),
        nutrientsStep_get_other _ _ (by decide)]
      exact hurl
    simp only [validate_and_transform_recipe, hasKey, htags, hinstr, hingr] at hurl' ⊢
    simp [hv, hw, hu, hurl']
  · intro r h
    simp only [validate_and_transform_recipe] at h ⊢
    repeat' split at h
    all_goals simp_all

/-- Claim C3, witness: a record whose renamed form has non-list `tags`
(and list `instructions`, present `ingredients` of arbitrary shape)
fails with exactly the `tags` type error. -/
theorem claim_C3_witness :
    validate_and_transform_recipe
      [("tags", Value.str "soup"), ("instructions", Value.list []),
       ("procesedIngredients", Value.int 3), ("url", Value.str "u")] =
      ⟨false, Option.none,
        [notAListError (Value.str "unknown") "tags" (Value.str "soup")]⟩ :=
  claim_C3.2.1
    [("tags", Value.str "soup"), ("instructions", Value.list []),
     ("procesedIngredients", Value.int 3), ("url", Value.str "u")]
    (Value.str "soup") (Value.list []) (Value.int 3) rfl rfl rfl rfl

/-! ## Claim C5 -/

theorem pyFindNumber_of_no_digit (cs : List Char) (h : ∀ c ∈ cs, c.isDigit = false) :
    pyFindNumber cs = Option.none := by
  induction cs with
  | nil => rfl
  | cons c rest ih =>
      unfold pyFindNumber
      rw [if_neg]
      · exact ih fun x hx => h x (List.mem_cons_of_mem c hx)
      · simp [h c (List.mem_cons_self c rest)]

/-- Claim C5, counterexample: the claim says a numeric `numServings` is
coerced to float, "the integer 6 becomes 6.0".  In
`validate_and_transform_recipe` (and the identical block of
`process_recipe_fields`) an `isinstance(v, (int, float))` value is left
untouched, so the integer 6 stays the integer 6 — a value of Python
type `int`, not `float` (observable through `type()`, JSON and
Firestore typing, even though `6 == 6.0` numerically). -/
theorem claim_C5_counterexample :
    dictGet (((validate_and_transform_recipe
      [("tags", Value.list []), ("instructions", Value.list []),
       ("procesedIngredients", Value.list []), ("numServings", Value.int 6),
       ("url", Value.str "u")]).recipe).getD []) "numServings" = some (Value.int 6) ∧
    Value.int 6 ≠ Value.float 6 :=
  ⟨rfl, by simp⟩

/-- Claim C5 (amended): only `Recipe._normalize_servings` (recipe.py)
coerces numerics to float (first two conjuncts); the two pipeline
normalizers leave an int (or float) `numServings` value exactly as it
was (sixth conjunct).  The string and other-type rules hold as claimed
everywhere: a digitless string gives null (fourth conjunct), a string
is parsed by the first `\d+\.?\d*` token — `"4-6 servings"` gives 4.0
(fifth conjunct) — null stays null in the model validator (third
conjunct), and a value of any non-str non-numeric type is nulled by
the pipeline step (seventh conjunct). -/
theorem claim_C5_amended :
    (∀ n : ℤ, pydNormalizeServings (.int n) = .float (n : ℚ)) ∧
    (∀ q : ℚ, pydNormalizeServings (.float q) = .float q) ∧
    (pydNormalizeServings Value.none = Value.none) ∧
    (∀ s : String, (∀ c ∈ s.data, c.isDigit = false) →
      servingsOfStr s = Value.none ∧ pydNormalizeServings (.str s) = Value.none) ∧
    (servingsOfStr "4-6 servings" = Value.float 4 ∧
      pydNormalizeServings (.str "4-6 servings") = Value.float 4 ∧
      servingsOfStr "serves many" = Value.none ∧
      pydNormalizeServings (.int 6) = Value.float 6) ∧
    (∀ rd : Record, ∀ n : ℤ, dictGet rd "numServings" = some (.int n) →
      servingsStep rd = rd) ∧
    (∀ rd : Record, ∀ v : Value, dictGet rd "numServings" = some v →
      v.isStr = false → v.isNumeric = false →
      dictGet (servingsStep rd) "numServings" = some Value.none) := by
  refine ⟨fun n => rfl, fun q => rfl, rfl, ?_, ⟨rfl, rfl, rfl, rfl⟩, ?_, ?_⟩
  · intro s h
    have hf : pyFindNumber s.data = Option.none := pyFindNumber_of_no_digit s.data h
    constructor
    · rw [servingsOfStr, hf]
    · show (match pyFindNumber s.data with
        | some t => Value.float (parseDecimal t)
        | Option.none => Value.none) = Value.none
      rw [hf]
  · intro rd n h
    exact servingsStep_of_int rd n h
  · intro rd v h h1 h2
    rw [servingsStep_of_other rd v h h1 h2]
    exact dictGet_dictSet_self _ _ _

/-- Claim C5 amended, witness: the no-digit rule at `"serves many"`,
the int-preservation rule at a concrete record, and the other-type
rule at a list-valued `numServings`. -/
theorem claim_C5_amended_witness :
    servingsOfStr "serves many" = Value.none ∧
    servingsStep [("numServings", Value.int 6)] = [("numServings", Value.int 6)] ∧
    dictGet (servingsStep [("numServings", Value.list [])]) "numServings" =
      some Value.none :=
  ⟨(claim_C5_amended.2.2.2.1 "serves many" (by decide)).1,
   claim_C5_amended.2.2.2.2.2.1 [("numServings", Value.int 6)] 6 rfl,
   claim_C5_amended.2.2.2.2.2.2 [("numServings", Value.list [])] (Value.list [])
     rfl rfl rfl⟩

/-! ## Claim C7 -/

/-- Claim C7 (confirmed): nutrients normalization.  In the pipeline
step (both cited modules share the block): a mapping value becomes the
list of `{name, quantity: str(value)}` pairs in iteration order (first
conjunct), a list value passes through with the record unchanged
(second conjunct), and any other present value — null included —
becomes the empty list (third conjunct).  The pydantic `mode="before"`
validator `_normalize_nutrients` implements the same table including
`None ↦ []` (fourth conjunct).  The fifth conjunct is the spec's
round-trip example `{"fat": 10, "protein": "20g"}`, order preserved
and `10` stringified. -/
theorem claim_C7 :
    (∀ rd : Record, ∀ es : List (String × Value),
      dictGet rd "nutrients" = some (Value.dict es) →
      dictGet (nutrientsStep rd) "nutrients" =
        some (Value.list (es.map nutrientsEntryToDict))) ∧
    (∀ rd : Record, ∀ xs : List Value,
      dictGet rd "nutrients" = some (Value.list xs) → nutrientsStep rd = rd) ∧
    (∀ rd : Record, ∀ v : Value, dictGet rd "nutrients" = some v →
      v.isDict = false → v.isList = false →
      dictGet (nutrientsStep rd) "nutrients" = some (Value.list [])) ∧
    (pydNormalizeNutrients Value.none = Value.list [] ∧
     (∀ es : List (String × Value),
       pydNormalizeNutrients (Value.dict es) = Value.list (es.map nutrientsEntryToDict)) ∧
     (∀ xs : List Value, pydNormalizeNutrients (Value.list xs) = Value.list xs) ∧
     (∀ v : Value, v.isDict = false → v.isList = false → v ≠ Value.none →
       pydNormalizeNutrients v = Value.list [])) ∧
    (nutrientsStep
      [("nutrients", Value.dict [("fat", Value.int 10), ("protein", Value.str "20g")])] =
      [("nutrients", Value.list
        [Value.dict [("name", Value.str "fat"), ("quantity", Value.str "10")],
         Value.dict [("name", Value.str "protein"), ("quantity", Value.str "20g")]])]) := by
  refine ⟨?_, ?_, ?_, ⟨rfl, fun es => rfl, fun xs => rfl, ?_⟩, rfl⟩
  · intro rd es h
    rw [nutrientsStep_of_dict rd es h]
    exact dictGet_dictSet_self _ _ _
  · intro rd xs h
    exact nutrientsStep_of_list rd xs h
  · intro rd v h h1 h2
    rw [nutrientsStep_of_other rd v h h1 h2]
    exact dictGet_dictSet_self _ _ _
  · intro v h1 h2 h3
    cases v <;> simp_all [pydNormalizeNutrients, Value.isDict, Value.isList]

/-- Claim C7, witness: the dict branch at a one-entry mapping, and the
other-type branch at a null value. -/
theorem claim_C7_witness :
    dictGet (nutrientsStep [("nutrients", Value.dict [("fat", Value.int 10)])])
      "nutrients" =
      some (Value.list [Value.dict
        [("name", Value.str "fat"), ("quantity", Value.str "10")]]) ∧
    dictGet (nutrientsStep [("nutrients", Value.none)]) "nutrients" =
      some (Value.list []) :=
  ⟨(claim_C7.1 [("nutrients", Value.dict [("fat", Value.int 10)])]
      [("fat", Value.int 10)] rfl).trans rfl,
   claim_C7.2.2.1 [("nutrients", Value.none)] Value.none rfl rfl rfl⟩

/-! ## Claim C4 -/

/-- A `Recipe` satisfying the claim's five conditions (id, title,
ingredients, ingredientStrings, nutrients all non-empty) but with no
`uuid`. -/
def c4Recipe : Recipe :=
  ⟨"a", Option.none, "Soup", Option.none, Option.none, Option.none, Option.none,
   Option.none, [], [], ["2 eggs"],
   [⟨Option.none, Option.none, some "2 eggs", Option.none⟩], [], Option.none,
   [⟨"fat", "10"⟩], Option.none, Option.none, Option.none, Option.none,
   Option.none, Option.none, Option.none, Option.none, [], Option.none,
   "discover"⟩

/-- Claim C4, counterexample: the claim lists exactly five required
attributes and asserts a record satisfying them "passes this validator
without raising".  `Recipe.validate` (recipe.py line 168-169) also
requires a non-empty `uuid`: a record meeting all five claimed
conditions but lacking `uuid` raises `ValueError("uuid is required")`. -/
theorem claim_C4_counterexample :
    Recipe.validate c4Recipe = Except.error "uuid is required" ∧
    c4Recipe.id ≠ "" ∧ c4Recipe.title ≠ "" ∧ c4Recipe.ingredients ≠ [] ∧
    c4Recipe.ingredientStrings ≠ [] ∧ c4Recipe.nutrients ≠ [] :=
  ⟨rfl, by simp [c4Recipe], by simp [c4Recipe], by simp [c4Recipe],
   by simp [c4Recipe], by simp [c4Recipe]⟩

/-- Claim C4 (amended): the stricter entry point requires exactly six
non-empty attributes — id, uuid, title, ingredients,
ingredientStrings, nutrients — and passes precisely when all six hold
(first conjunct).  It does not stop at the first violation: each
attribute's message appears in the collected list exactly when that
attribute is missing/empty (middle conjuncts), and on failure the
single raised message is all collected violations joined by `"; "`
(last conjunct). -/
theorem mem_ite_singleton {α : Type} {c : Prop} [Decidable c] {a m : α} :
    (a ∈ (if c then [m] else ([] : List α))) ↔ c ∧ a = m := by
  split <;> simp_all

theorem ite_singleton_eq_nil {α : Type} {c : Prop} [Decidable c] {m : α} :
    ((if c then [m] else ([] : List α)) = []) ↔ ¬c := by
  split <;> simp_all

theorem validateViolations_eq_nil (rec : Recipe) :
    validateViolations rec = [] ↔
      (rec.id ≠ "" ∧ uuidFalsy rec = false ∧ rec.title ≠ "" ∧
       rec.ingredients ≠ [] ∧ rec.ingredientStrings ≠ [] ∧ rec.nutrients ≠ []) := by
  simp only [validateViolations, List.append_eq_nil, ite_singleton_eq_nil]
  simp only [Bool.not_eq_true, List.isEmpty_iff]
  tauto

theorem mem_validateViolations (rec : Recipe) (s : String) :
    s ∈ validateViolations rec ↔
      ((rec.id = "" ∧ s = "id is required") ∨
       (uuidFalsy rec = true ∧ s = "uuid is required") ∨
       (rec.title = "" ∧ s = "title is required") ∨
       (rec.ingredients = [] ∧ s = "ingredients are required structured") ∨
       (rec.ingredientStrings = [] ∧ s = "ingredient strings are required") ∨
       (rec.nutrients = [] ∧ s = "nutrients are required")) := by
  simp only [validateViolations, List.mem_append, mem_ite_singleton,
    List.isEmpty_iff]
  tauto

theorem claim_C4_amended :
    ∀ rec : Recipe,
      (Recipe.validate rec = Except.ok () ↔
        (rec.id ≠ "" ∧ uuidFalsy rec = false ∧ rec.title ≠ "" ∧
         rec.ingredients ≠ [] ∧ rec.ingredientStrings ≠ [] ∧ rec.nutrients ≠ [])) ∧
      ("id is required" ∈ validateViolations rec ↔ rec.id = "") ∧
      ("uuid is required" ∈ validateViolations rec ↔ uuidFalsy rec = true) ∧
      ("title is required" ∈ validateViolations rec ↔ rec.title = "") ∧
      ("ingredients are required structured" ∈ validateViolations rec ↔
        rec.ingredients = []) ∧
      ("ingredient strings are required" ∈ validateViolations rec ↔
        rec.ingredientStrings = []) ∧
      ("nutrients are required" ∈ validateViolations rec ↔ rec.nutrients = []) ∧
      (validateViolations rec ≠ [] →
        Recipe.validate rec =
          Except.error (String.intercalate "; " (validateViolations rec))) := by
  intro rec
  refine ⟨?_, ?_, ?_, ?_, ?_, ?_, ?_, ?_⟩
  · by_cases hh : validateViolations rec = []
    · simp [Recipe.validate, hh, (validateViolations_eq_nil rec).mp hh]
    · have he : (validateViolations rec).isEmpty = false := by
        simp [List.isEmpty_iff, hh]
      have hv : Recipe.validate rec =
          Except.error (String.intercalate "; " (validateViolations rec)) := by
        simp [Recipe.validate, he]
      rw [hv]
      constructor
      · intro hcontr
        simp at hcontr
      · intro h6
        exact absurd ((validateViolations_eq_nil rec).mpr h6) hh
  · rw [mem_validateViolations]; simp
  · rw [mem_validateViolations]; simp
  · rw [mem_validateViolations]; simp
  · rw [mem_validateViolations]; simp
  · rw [mem_validateViolations]; simp
  · rw [mem_validateViolations]; simp
  · intro hne
    have he : (validateViolations rec).isEmpty = false := by
      simp [List.isEmpty_iff, hne]
    simp [Recipe.validate, he]

/-- Claim C4 amended, witness: a record with all six attributes
non-empty passes, and one missing both `id` and `title` collects both
messages in one combined error. -/
theorem claim_C4_amended_witness :
    Recipe.validate { c4Recipe with uuid := some "u" } = Except.ok () ∧
    Recipe.validate { c4Recipe with id := "", title := "", uuid := some "u" } =
      Except.error "id is required; title is required" := by
  constructor
  · exact (claim_C4_amended { c4Recipe with uuid := some "u" }).1.mpr
      ⟨by simp [c4Recipe], rfl, by simp [c4Recipe], by simp [c4Recipe],
       by simp [c4Recipe], by simp [c4Recipe]⟩
  · have h := (claim_C4_amended
      { c4Recipe with id := "", title := "", uuid := some "u" }).2.2.2.2.2.2.2
    have hv : validateViolations
        { c4Recipe with id := "", title := "", uuid := some "u" } =
        ["id is required", "title is required"] := rfl
    rw [hv] at h
    exact h (by simp)

/-! ## Claim C10 -/

theorem except_bind_ok {α β : Type} {x : Except String α} {f : α → Except String β}
    {b : β} (h : x >>= f = Except.ok b) : ∃ a, x = Except.ok a ∧ f a = Except.ok b := by
  cases x with
  | error e => simp [Bind.bind, Except.bind] at h
  | ok a => exact ⟨a, rfl, by simpa [Bind.bind, Except.bind] using h⟩

/-- A string accepted for the title field is non-empty: it is either
the truthy (hence non-empty) string value of the raw `title`, or the
fallback `"Unknown"`. -/
theorem toStr_pyOr_ne_empty (v : Value) (s : String)
    (h : toStr (Value.pyOr v (.str "Unknown")) = Except.ok s) : s ≠ "" := by
  unfold Value.pyOr at h
  split at h
  · next ht =>
      cases v <;> simp [toStr] at h
      · next s0 =>
          subst h
          simpa [Value.truthy] using ht
  · simp [toStr] at h
    subst h
    decide

theorem title_msg_not_mem (rec : Recipe) (h : rec.title ≠ "") :
    "title is required" ∉ validateViolations rec := by
  unfold validateViolations
  split_ifs <;> simp_all

/-- Claim C10 (confirmed): `Recipe.from_raw` computes the title as
`data.get("title") or "Unknown"`, so every successfully constructed
recipe has a non-empty title (a falsy raw title — missing, null, or
empty — becomes `"Unknown"`; a truthy non-string raw title fails
pydantic construction outright), and consequently `Recipe.validate`
can never include a "title is required" violation for a record built
via `from_raw`. -/
theorem claim_C10 :
    ∀ data : Record, ∀ rec : Recipe,
      Recipe.from_raw data = Except.ok rec →
      rec.title ≠ "" ∧ "title is required" ∉ validateViolations rec := by
  intro data rec h
  unfold Recipe.from_raw at h
  obtain ⟨thead, hhead, h⟩ := except_bind_ok h
  obtain ⟨idv, uuidv, titlev, dv, uv, hv, iv, av⟩ := thead
  obtain ⟨tcontent, hcontent, h⟩ := except_bind_ok h
  obtain ⟨insv, grv, isv, ingv, tgv, cmv, nuv⟩ := tcontent
  obtain ⟨tnum, hnum, h⟩ := except_bind_ok h
  obtain ⟨hsv, hgv, nsv, ctv, ptv, ttv, rtv, rcv⟩ := tnum
  obtain ⟨ttail, htail, h⟩ := except_bind_ok h
  obtain ⟨emv, clv, chv⟩ := ttail
  -- extract non-emptiness of the title component of `fromRawHead`
  have htitle : titlev ≠ "" := by
    unfold fromRawHead at hhead
    obtain ⟨a1, _, hhead⟩ := except_bind_ok hhead
    obtain ⟨a2, _, hhead⟩ := except_bind_ok hhead
    obtain ⟨a3, ht3, hhead⟩ := except_bind_ok hhead
    obtain ⟨a4, _, hhead⟩ := except_bind_ok hhead
    obtain ⟨a5, _, hhead⟩ := except_bind_ok hhead
    obtain ⟨a6, _, hhead⟩ := except_bind_ok hhead
    obtain ⟨a7, _, hhead⟩ := except_bind_ok hhead
    obtain ⟨a8, _, hhead⟩ := except_bind_ok hhead
    simp only [Except.ok.injEq, Prod.mk.injEq] at hhead
    obtain ⟨-, -, h3, -⟩ := hhead
    subst h3
    exact toStr_pyOr_ne_empty _ a3 ht3
  replace h := Except.ok.inj h
  subst h
  exact ⟨htitle, title_msg_not_mem _ htitle⟩

/-- The recipe produced by `from_raw` on the minimal raw record
`{"id": "r1"}`. -/
def c10Recipe : Recipe :=
  ⟨"r1", Option.none, "Unknown", Option.none, Option.none, Option.none,
   Option.none, Option.none, [], [], [], [], [], Option.none, [], Option.none,
   Option.none, Option.none, Option.none, Option.none, Option.none,
   Option.none, Option.none, [], Option.none, "discover"⟩

/-- Claim C10, witness: the minimal raw record `{"id": "r1"}` (no
title at all) constructs successfully with title `"Unknown"`, and its
violation list cannot mention the title. -/
theorem claim_C10_witness :
    Recipe.from_raw [("id", Value.str "r1")] = Except.ok c10Recipe ∧
    c10Recipe.title ≠ "" ∧
    "title is required" ∉ validateViolations c10Recipe := by
  have h : Recipe.from_raw [("id", Value.str "r1")] = Except.ok c10Recipe := rfl
  obtain ⟨h1, h2⟩ := claim_C10 [("id", Value.str "r1")] c10Recipe h
  exact ⟨h, h1, h2⟩

/-! ## Claim C8 -/

theorem length_filter_partition {α : Type} (p : α → Bool) (l : List α) :
    (l.filter p).length + (l.filter (fun x => !p x)).length = l.length := by
  induction l with
  | nil => rfl
  | cons x xs ih =>
      by_cases h : p x <;> simp [List.filter_cons, h] <;> omega

theorem validate_valid_recipe_isSome (m : Record)
    (h : (validate_and_transform_recipe m).is_valid = true) :
    (validate_and_transform_recipe m).recipe.isSome = true := by
  simp only [validate_and_transform_recipe] at h ⊢
  repeat' split at h
  all_goals simp_all

theorem filterMap_valid_failed_length (l : List (Record × ValidationResult))
    (hinv : ∀ p ∈ l, p.2.is_valid = true → p.2.recipe.isSome = true) :
    (l.filterMap (fun p => if p.2.is_valid then p.2.recipe else Option.none)).length +
    (l.filterMap (fun p => if p.2.is_valid then Option.none else
      some ((dictGet p.1 "recipe_id").getD .none,
        String.intercalate "; " (p.2.errors.map (fun e => e.error))))).length =
    l.length := by
  induction l with
  | nil => rfl
  | cons x xs ih =>
      have ih' := ih fun p hp hv => hinv p (List.mem_cons_of_mem x hp) hv
      by_cases h : x.2.is_valid
      · obtain ⟨r0, hr0⟩ := Option.isSome_iff_exists.mp
          (hinv x (List.mem_cons_self x xs) h)
        simp only [List.filterMap_cons, h, if_true, hr0, List.length_cons]
        omega
      · simp only [List.filterMap_cons, h, if_false, List.length_cons,
          Bool.false_eq_true]
        omega

theorem uploadLoop_invariant (bs : ℕ) (l : List Record)
    (st : ℕ × ℕ × List (Value × String)) :
    (l.foldl (uploadStep bs) st).1 + (l.foldl (uploadStep bs) st).2.1 +
      (l.foldl (uploadStep bs) st).2.2.length =
    st.1 + st.2.1 + st.2.2.length + l.length := by
  induction l generalizing st with
  | nil => simp
  | cons x xs ih =>
      rw [List.foldl_cons, ih]
      have hstep : (uploadStep bs st x).1 + (uploadStep bs st x).2.1 +
          (uploadStep bs st x).2.2.length = st.1 + st.2.1 + st.2.2.length + 1 := by
        unfold uploadStep
        cases h : dictGet x "id" with
        | some v => simp only; split <;> simp <;> omega
        | none => simp; omega
      simp only [List.length_cons]
      omega

/-- The upload loop with its final partial commit accounts for every
valid recipe: committed plus still-pending plus failed equals the
number of records fed to it. -/
theorem uploadLoop_sum (bs : ℕ) (l : List Record) :
    (uploadLoop bs l).1 + (uploadLoop bs l).2.1 + (uploadLoop bs l).2.2.length =
      l.length := by
  have h := uploadLoop_invariant bs l (0, 0, [])
  simpa [uploadLoop] using h

theorem uploadPhase2_invariants (n : ℕ) (skipped : List Value)
    (toProcess : List Record) (bs : ℕ)
    (hn : n = toProcess.length + skipped.length) :
    (uploadPhase2 n skipped toProcess bs).total_selected =
      (uploadPhase2 n skipped toProcess bs).total_valid +
      (uploadPhase2 n skipped toProcess bs).failedValidation.length +
      (uploadPhase2 n skipped toProcess bs).skipped.length ∧
    (uploadPhase2 n skipped toProcess bs).uploaded +
      (uploadPhase2 n skipped toProcess bs).failedUpload.length =
      (uploadPhase2 n skipped toProcess bs).total_valid := by
  have hinv : ∀ p ∈ toProcess.map
      (fun r => (r, validate_and_transform_recipe (map_local_to_firebase r))),
      p.2.is_valid = true → p.2.recipe.isSome = true := by
    intro p hp hv
    obtain ⟨r, hr, hpr⟩ := List.mem_map.mp hp
    rw [← hpr] at hv ⊢
    exact validate_valid_recipe_isSome _ hv
  have hcount := filterMap_valid_failed_length _ hinv
  rw [List.length_map] at hcount
  simp only [uploadPhase2]
  split
  · next h1 =>
      have h1' := congrArg List.length (List.isEmpty_iff.mp h1)
      simp only [List.length_nil] at h1'
      constructor
      · dsimp only
        simp only [List.length_nil]
        omega
      · rfl
  · next h1 =>
      split
      · next h2 =>
          have h2' := congrArg List.length (List.isEmpty_iff.mp h2)
          simp only [List.length_nil] at h2'
          constructor
          · dsimp only
            omega
          · dsimp only
            simp only [List.length_nil]
            omega
      · next h2 =>
          have hloop := uploadLoop_sum bs
            ((toProcess.map (fun r =>
              (r, validate_and_transform_recipe (map_local_to_firebase r)))).filterMap
              (fun p => if p.2.is_valid then p.2.recipe else Option.none))
          constructor
          · dsimp only
            omega
          · dsimp only
            split
            · omega
            · next hbc =>
                have hbc0 : (uploadLoop bs
                    ((toProcess.map (fun r =>
                      (r, validate_and_transform_recipe (map_local_to_firebase r)))).filterMap
                      (fun p => if p.2.is_valid then p.2.recipe else Option.none))).2.1 = 0 := by
                  omega
                omega

/-- Claim C8 (confirmed): the batch result invariant.  For every
batch, id set, duplicate-filter flag and batch size:
`total_selected = total_valid + len(validation failures) + len(skipped)`
(the state of the result when the upload loop starts), and after the
upload loop `uploaded + len(post-validation upload failures) =
total_valid` — every valid record is either counted in a committed
batch or receives a failure entry.  The Firestore writer is modelled
as non-failing; the one in-scope exception, the `KeyError` on a valid
record with no `id`, lands the record in `failed`, preserving the
invariant. -/
theorem claim_C8 :
    ∀ (recipes : List Record) (uploaded_ids : List String)
      (exclude_uploaded : Bool) (batch_size : ℕ),
      (upload_recipes_to_firebase recipes uploaded_ids exclude_uploaded
        batch_size).total_selected =
        (upload_recipes_to_firebase recipes uploaded_ids exclude_uploaded
          batch_size).total_valid +
        (upload_recipes_to_firebase recipes uploaded_ids exclude_uploaded
          batch_size).failedValidation.length +
        (upload_recipes_to_firebase recipes uploaded_ids exclude_uploaded
          batch_size).skipped.length ∧
      (upload_recipes_to_firebase recipes uploaded_ids exclude_uploaded
        batch_size).uploaded +
        (upload_recipes_to_firebase recipes uploaded_ids exclude_uploaded
          batch_size).failedUpload.length =
        (upload_recipes_to_firebase recipes uploaded_ids exclude_uploaded
          batch_size).total_valid := by
  intro recipes ids ex bs
  unfold upload_recipes_to_firebase
  cases ex with
  | false =>
      refine uploadPhase2_invariants recipes.length _ _ bs ?_
      simp
  | true =>
      refine uploadPhase2_invariants recipes.length _ _ bs ?_
      have hp := length_filter_partition (fun r => recipeIdIn r ids) recipes
      simp only [eq_self_iff_true, if_true, List.length_map]
      omega

end Plaite
